import Mathlib

/-!
Verification of the hist_scanner collection-and-delivery pipeline.

This file gives a shallow embedding of the pure logic of the scanner:
the delivery transport (internal/sender/client.go), the per-browser
history readers and profile discovery (internal/browser), the orchestrator
(internal/scanner) and the watermark update rule (internal/state), and
proves or refutes the specified properties about them.

Modelling conventions:
- Go int64 values are modelled as Int; no arithmetic here comes near 2^63,
  so overflow is ignored. Go integer division truncates toward zero and is
  modelled by Int.tdiv.
- Go float64 arithmetic (Safari timestamps, the gzip size ratio) is
  modelled by exact arithmetic: Rat for Safari seconds, and exact
  truncated division for the int(float64(currentSize) * 0.3) estimate.
- I/O effects (HTTP, SQLite, the filesystem) are passed in as explicit
  oracles: a per-chunk delivery outcome, the rows a query returns, a
  stat/readDir view of the filesystem.
-/

namespace HistScanner

/-- PrincipalKind from internal/dto/dto.go: USERNAME or IP. -/
inductive PrincipalKind where
  | username
  | ip
deriving DecidableEq, Repr

/-- PrincipalDTO from internal/dto/dto.go. -/
structure PrincipalDTO where
  name : String
  kind : PrincipalKind
deriving DecidableEq, Repr

/-- VisitedSite from internal/dto/dto.go; timestamp is Unix milliseconds. -/
structure VisitedSite where
  url : String
  timestamp : Int
deriving DecidableEq, Repr

instance : Inhabited VisitedSite := ⟨⟨"", 0⟩⟩

/-- VisitedSitesDTO from internal/dto/dto.go: the payload sent to the server. -/
structure VisitedSitesDTO where
  principal : PrincipalDTO
  visitedSites : List VisitedSite
  source : String
deriving DecidableEq, Repr

/-- The two configuration fields of sender.Client that the chunking and
delivery logic reads, from internal/sender/client.go.  serverURL, apiKey and
the HTTP handle do not influence the logic modelled here. -/
structure Client where
  maxChunkSize : Nat
  compress : Bool
deriving DecidableEq, Repr

/-- Per-entry size estimate from Client.buildChunks:
entrySize := len(site.URL) + 40 (Go len on a string counts bytes). -/
def entrySize (site : VisitedSite) : Nat :=
  site.url.utf8ByteSize + 40

/-- The size estimate buildChunks compares against the ceiling: currentSize
itself, or, when compression is on, int(float64(currentSize) * 0.3).
The float computation is modelled as exact truncated division by 10/3. -/
def estimatedCompressedSize (compress : Bool) (currentSize : Nat) : Nat :=
  if compress then currentSize * 3 / 10 else currentSize

/-- The loop body of Client.buildChunks, with the accumulated chunks made
explicit: sites is the remaining input, currentSites and currentSize are the
open chunk and its running uncompressed size estimate. -/
def buildChunksAux (c : Client) (p : PrincipalDTO) (src : String) :
    List VisitedSite → List VisitedSite → Nat → List VisitedSitesDTO
  | [], currentSites, _ =>
      if currentSites = [] then [] else [⟨p, currentSites, src⟩]
  | site :: rest, currentSites, currentSize =>
      if currentSites ≠ [] ∧
          estimatedCompressedSize c.compress currentSize + entrySize site >
            c.maxChunkSize then
        ⟨p, currentSites, src⟩ :: buildChunksAux c p src rest [site] (entrySize site)
      else
        buildChunksAux c p src rest (currentSites ++ [site])
          (currentSize + entrySize site)

/-- Client.buildChunks from internal/sender/client.go. -/
def buildChunks (c : Client) (payload : VisitedSitesDTO) : List VisitedSitesDTO :=
  buildChunksAux c payload.principal payload.source payload.visitedSites [] 0

/-- SendResult from internal/sender/client.go.  LastError is modelled by
whether it is non-nil; the byte counters are not used by any claim and are
omitted. -/
structure SendResult where
  totalSent : Nat
  chunksSent : Nat
  failedCount : Nat
  lastErrorSet : Bool
deriving DecidableEq, Repr

/-- The inner loop of Client.Send that folds a successful chunk's record
timestamps into maxTimestamp: if site.Timestamp > maxTimestamp, replace it. -/
def chunkMaxTimestamp (m : Int) (sites : List VisitedSite) : Int :=
  sites.foldl (fun acc s => if s.timestamp > acc then s.timestamp else acc) m

/-- The chunk loop of Client.Send.  ok i tells whether sendChunk succeeded for
the i-th chunk (the HTTP level is modelled separately by sendChunkModel). -/
def sendLoop (ok : Nat → Bool) :
    Nat → List VisitedSitesDTO → SendResult → Int → SendResult × Int
  | _, [], r, m => (r, m)
  | i, chunk :: rest, r, m =>
      if ok i then
        sendLoop ok (i + 1) rest
          { r with
            totalSent := r.totalSent + chunk.visitedSites.length
            chunksSent := r.chunksSent + 1 }
          (chunkMaxTimestamp m chunk.visitedSites)
      else
        sendLoop ok (i + 1) rest
          { r with
            failedCount := r.failedCount + chunk.visitedSites.length
            lastErrorSet := true }
          m

/-- The final return of Client.Send: when nothing was sent and an error was
recorded (if result.TotalSent == 0 && result.LastError != nil), Send returns
(result, 0, LastError); otherwise (result, maxTimestamp, nil).  The Bool is
whether the returned error is non-nil. -/
def sendReturn (rm : SendResult × Int) : SendResult × Int × Bool :=
  if rm.1.totalSent = 0 ∧ rm.1.lastErrorSet then (rm.1, 0, true)
  else (rm.1, rm.2, false)

/-- Client.Send from internal/sender/client.go: empty payloads return the
zero result at once; otherwise the chunk loop runs over buildChunks and the
final branch decides what to return. -/
def Send (c : Client) (ok : Nat → Bool) (payload : VisitedSitesDTO) :
    SendResult × Int × Bool :=
  if payload.visitedSites.length = 0 then (⟨0, 0, 0, false⟩, 0, false)
  else sendReturn (sendLoop ok 0 (buildChunks c payload) ⟨0, 0, 0, false⟩ 0)

/-- What the remote end did with one HTTP POST: either a response with a
status code, or a transport-level failure (request error / timeout). -/
inductive HttpReply where
  | status (code : Nat)
  | netError
deriving DecidableEq, Repr

/-- The error values sendChunk can propagate: httpError{statusCode} from a
non-2xx response, or a plain wrapped error from the transport itself. -/
inductive SendErr where
  | httpErr (code : Nat)
  | reqError
deriving DecidableEq, Repr

/-- The shared tail of sendWithGzip and sendRaw: a 2xx response is success,
any other status becomes an httpError, a failed request a plain error. -/
def attemptOutcome : HttpReply → Option SendErr
  | .status code => if 200 ≤ code ∧ code < 300 then none else some (.httpErr code)
  | .netError => some .reqError

/-- isUnsupportedMediaType from internal/sender/client.go: the error is an
httpError and its status code is 415. -/
def isUnsupportedMediaType : SendErr → Bool
  | .httpErr code => code == 415
  | .reqError => false

/-- Client.sendChunk from internal/sender/client.go, at the level of HTTP
attempts.  data stands for the bytes json.Marshal produced for the chunk
(marshalling cannot fail for these types, and in-memory gzip of a byte slice
cannot fail either, so those error paths are not modelled).  respond tells how
the remote end answers an attempt; its first argument is whether the attempt
is gzip-compressed.  Returns the list of attempts made, as
(compressed, payload bytes) pairs in order, and the error returned. -/
def sendChunkModel (compress : Bool) (data : String)
    (respond : Bool → String → HttpReply) : List (Bool × String) × Option SendErr :=
  if compress then
    match attemptOutcome (respond true data) with
    | none => ([(true, data)], none)
    | some e =>
        if isUnsupportedMediaType e then
          ([(true, data), (false, data)], attemptOutcome (respond false data))
        else
          ([(true, data)], some e)
  else
    ([(false, data)], attemptOutcome (respond false data))

/-- What one Scanner.scanProfile call did to the outside world, from
internal/scanner (scanner.go): whether Client.Send was invoked, the watermark
value for the profile's key afterwards, whether SetLastTimestamp was called,
and the returned value: none models a returned error, some n a return of
(n, nil). -/
structure ScanEffects where
  transportCalled : Bool
  storedAfter : Int
  storeWritten : Bool
  sentResult : Option Nat
deriving DecidableEq, Repr

/-- Scanner.scanProfile (non-dry-run path).  stored is the watermark the
state manager holds for (user, browser, profile); horizon is
time.Now().AddDate(0, 0, -InitialDays).UnixMilli(), substituted when stored
is 0; history models b.GetHistory for this profile (none = error); ok models
the per-chunk delivery outcomes inside Client.Send. -/
def scanProfile (c : Client) (ok : Nat → Bool) (stored horizon : Int)
    (history : Int → Option (List VisitedSite))
    (principal : PrincipalDTO) (source : String) : ScanEffects :=
  let lastTimestamp := if stored = 0 then horizon else stored
  match history lastTimestamp with
  | none => ⟨false, stored, false, none⟩
  | some entries =>
      if entries.length = 0 then ⟨false, stored, false, some 0⟩
      else
        let out := Send c ok ⟨principal, entries, source⟩
        if out.2.2 then ⟨true, stored, false, none⟩
        else if out.2.1 > 0 then ⟨true, out.2.1, true, some out.1.totalSent⟩
        else ⟨true, stored, false, some out.1.totalSent⟩

/-- ExitCode from internal/scanner: 0, 1 or 2. -/
inductive ExitCode where
  | success
  | partialFailure
  | completeFailure
deriving DecidableEq, Repr

/-- The inputs Scanner.Run's exit-code computation depends on: whether
platform.GetAllUsers succeeded, and, per enumerated user, the flattened list
of scanProfile results over all browsers and profiles (none = scanProfile
returned an error; some n = it returned (n, nil)).  Browsers whose
FindProfiles errored or found no profiles contribute no element. -/
structure RunInput where
  enumOk : Bool
  userProfiles : List (List (Option Nat))
deriving DecidableEq, Repr

/-- Run counts a profile as a success when scanProfile returned (sent, nil)
with sent > 0. -/
def isSuccessOutcome : Option Nat → Bool
  | some n => decide (0 < n)
  | none => false

/-- The exit-code determination of Scanner.Run: complete failure when user
enumeration fails or finds nobody; otherwise successCount counts profiles
with sent > 0, failureCount counts profiles whose scanProfile errored, and
the code is 2 / 1 / 0 by the final if-chain. -/
def runExitCode (inp : RunInput) : ExitCode :=
  if !inp.enumOk then .completeFailure
  else if inp.userProfiles.length = 0 then .completeFailure
  else if (inp.userProfiles.flatten.filter isSuccessOutcome).length = 0 ∧
      (inp.userProfiles.flatten.filter (fun o => o.isNone)).length > 0 then
    .completeFailure
  else if (inp.userProfiles.flatten.filter (fun o => o.isNone)).length > 0 then
    .partialFailure
  else .success

/-- Chromium epoch offset: 11644473600 seconds between 1601-01-01 and the
Unix epoch, in microseconds, from ChromiumBrowser.GetHistory. -/
def chromiumEpochOffsetMicros : Int := 11644473600 * 1000000

/-- The conversion applied to a returned row in ChromiumBrowser.GetHistory:
unixMs := (lastVisitTime - (11644473600 * 1000000)) / 1000, with Go's
truncating int64 division. -/
def chromiumToUnixMs (lastVisitTime : Int) : Int :=
  Int.tdiv (lastVisitTime - chromiumEpochOffsetMicros) 1000

/-- The inverse conversion in ChromiumBrowser.GetHistory, applied to a
positive sinceTimestamp: (sinceTimestamp * 1000) + (11644473600 * 1000000). -/
def chromiumFromUnixMs (sinceTimestamp : Int) : Int :=
  sinceTimestamp * 1000 + chromiumEpochOffsetMicros

/-- The query threshold of ChromiumBrowser.GetHistory: chromiumTimestamp is 0
unless sinceTimestamp > 0, in which case it is the converted watermark. -/
def chromiumSinceNative (sinceTimestamp : Int) : Int :=
  if sinceTimestamp > 0 then chromiumFromUnixMs sinceTimestamp else 0

/-- One row of the Chromium urls table as read by the query. -/
structure UrlRow where
  url : String
  lastVisitTime : Int
deriving DecidableEq, Repr

/-- ChromiumBrowser.GetHistory, given the urls table in ascending
last_visit_time order (the ORDER BY of the query); the WHERE clause keeps
rows with last_visit_time strictly greater than the native threshold, and
each kept row is converted to Unix milliseconds.  Scan errors (skipped rows)
are not modelled. -/
def chromiumGetHistory (rows : List UrlRow) (sinceTimestamp : Int) :
    List VisitedSite :=
  (rows.filter
      (fun r => decide (chromiumSinceNative sinceTimestamp < r.lastVisitTime))).map
    (fun r => ⟨r.url, chromiumToUnixMs r.lastVisitTime⟩)

/-- Safari epoch offset: 978307200 seconds between the Unix epoch and
2001-01-01, from SafariBrowser.GetHistory. -/
def safariEpochOffsetSeconds : Int := 978307200

/-- Truncation toward zero of a rational, modelling Go's int64(float64). -/
def ratTruncToInt (q : Rat) : Int :=
  Int.tdiv q.num q.den

/-- The conversion applied to a returned row in SafariBrowser.GetHistory:
unixMs := int64((visitTime + 978307200.0) * 1000), float64 arithmetic
modelled as exact rational arithmetic. -/
def safariToUnixMs (visitTime : Rat) : Int :=
  ratTruncToInt ((visitTime + (safariEpochOffsetSeconds : Rat)) * 1000)

/-- The inverse conversion in SafariBrowser.GetHistory, applied to a positive
sinceTimestamp: float64(sinceTimestamp)/1000.0 - 978307200.0. -/
def safariFromUnixMs (sinceTimestamp : Int) : Rat :=
  (sinceTimestamp : Rat) / 1000 - (safariEpochOffsetSeconds : Rat)

/-- The query threshold of SafariBrowser.GetHistory: safariTimestamp stays 0
unless sinceTimestamp > 0. -/
def safariSinceNative (sinceTimestamp : Int) : Rat :=
  if sinceTimestamp > 0 then safariFromUnixMs sinceTimestamp else 0

/-- One row of the joined history_visits/history_items query in Safari. -/
structure VisitRow where
  url : String
  visitTime : Rat
deriving DecidableEq, Repr

/-- SafariBrowser.GetHistory, given the visit rows in ascending visit_time
order; strictly-greater filter on the native threshold, then conversion to
Unix milliseconds. -/
def safariGetHistory (rows : List VisitRow) (sinceTimestamp : Int) :
    List VisitedSite :=
  (rows.filter
      (fun r => decide (safariSinceNative sinceTimestamp < r.visitTime))).map
    (fun r => ⟨r.url, safariToUnixMs r.visitTime⟩)

/-- platform.OS as used by CurrentOS. -/
inductive OSKind where
  | linux
  | darwin
  | windows
  | other
deriving DecidableEq, Repr

/-- What os.Stat reports for a path: success, an is-not-exist error, or some
other error (permission, I/O). -/
inductive StatOutcome where
  | ok
  | notExist
  | otherError
deriving DecidableEq, Repr

/-- One entry of os.ReadDir. -/
structure DirEntry where
  name : String
  isDir : Bool
deriving DecidableEq, Repr

/-- The filesystem view FindProfiles consults: stat per path, and readDir
per directory (none = error). -/
structure FileSystem where
  stat : String → StatOutcome
  readDir : String → Option (List DirEntry)

/-- platform.User: name and home directory. -/
structure User where
  username : String
  homeDir : String
deriving DecidableEq, Repr

/-- browser.Profile: a name and the profile directory path. -/
structure Profile where
  name : String
  path : String
deriving DecidableEq, Repr

/-- filepath.Join for the two-component joins used here, modelled as a
separator concatenation. -/
def pathJoin (a b : String) : String := a ++ "/" ++ b

/-- ChromiumPaths from internal/browser: per-OS base directory fragments. -/
structure ChromiumPaths where
  linuxPath : String
  darwinPath : String
  windowsPath : String
  windowsAppData : Bool
deriving DecidableEq, Repr

/-- ChromiumBrowser.getBaseDir; getenv models os.Getenv for the Windows
APPDATA / LOCALAPPDATA fallback of the current-user case. -/
def getBaseDir (os : OSKind) (getenv : String → String) (paths : ChromiumPaths)
    (user : User) : String :=
  match os with
  | .linux =>
      if paths.linuxPath = "" then "" else pathJoin user.homeDir paths.linuxPath
  | .darwin =>
      if paths.darwinPath = "" then "" else pathJoin user.homeDir paths.darwinPath
  | .windows =>
      if paths.windowsPath = "" then ""
      else if user.homeDir ≠ "" then
        if paths.windowsAppData then
          pathJoin (pathJoin (pathJoin user.homeDir "AppData") "Roaming")
            paths.windowsPath
        else
          pathJoin (pathJoin (pathJoin user.homeDir "AppData") "Local")
            paths.windowsPath
      else
        let base := getenv (if paths.windowsAppData then "APPDATA" else "LOCALAPPDATA")
        if base = "" then "" else pathJoin base paths.windowsPath
  | .other => ""

/-- The body of ChromiumBrowser.FindProfiles after baseDir is computed.  The
Bool component models the returned error (nil on every path, including a
ReadDir failure).  With hasProfiles, directory entries named Default or
starting with Profile-space are kept only when their History file stats
cleanly; without, the base directory itself is the single candidate. -/
def chromiumProfilesIn (fs : FileSystem) (hasProfiles : Bool)
    (baseDir : String) : List Profile × Bool :=
  if baseDir = "" then ([], false)
  else if fs.stat baseDir = .notExist then ([], false)
  else if hasProfiles then
    match fs.readDir baseDir with
    | none => ([], false)
    | some entries =>
        (entries.filterMap (fun e =>
          if e.isDir ∧ (e.name = "Default" ∨ e.name.startsWith "Profile ") ∧
              fs.stat (pathJoin (pathJoin baseDir e.name) "History") = .ok then
            some ⟨e.name, pathJoin baseDir e.name⟩
          else none), false)
  else
    if fs.stat (pathJoin baseDir "History") = .ok then
      ([⟨"Default", baseDir⟩], false)
    else ([], false)

/-- ChromiumBrowser.FindProfiles: compute the per-OS base directory, then
look for profiles inside it. -/
def chromiumFindProfiles (os : OSKind) (getenv : String → String)
    (fs : FileSystem) (paths : ChromiumPaths) (hasProfiles : Bool)
    (user : User) : List Profile × Bool :=
  chromiumProfilesIn fs hasProfiles (getBaseDir os getenv paths user)

/-- SafariBrowser.FindProfiles: nothing off macOS; otherwise a single Default
profile is returned unless os.Stat on History.db reports is-not-exist (note:
any other stat error still returns the profile). -/
def safariFindProfiles (os : OSKind) (fs : FileSystem) (user : User) :
    List Profile × Bool :=
  if os ≠ .darwin then ([], false)
  else
    if fs.stat (pathJoin user.homeDir "Library/Safari/History.db") = .notExist then
      ([], false)
    else
      ([⟨"Default", pathJoin user.homeDir "Library/Safari"⟩], false)

/-! Concrete scenario shared by several results: a client with a 50-byte
ceiling and no compression, a two-record payload that splits into two
single-record chunks, and a delivery pattern where the first chunk fails and
the second succeeds. -/

/-- Example principal. -/
def exPrincipal : PrincipalDTO := ⟨"alice", .username⟩

/-- Example record with timestamp 100 (entry size 10 + 40 = 50). -/
def exSiteA : VisitedSite := ⟨"aaaaaaaaaa", 100⟩

/-- Example record with timestamp 200 (entry size 10 + 40 = 50). -/
def exSiteB : VisitedSite := ⟨"bbbbbbbbbb", 200⟩

/-- Example payload with the two records above. -/
def exPayload : VisitedSitesDTO := ⟨exPrincipal, [exSiteA, exSiteB], "chrome"⟩

/-- Example client: 50-byte chunk ceiling, no compression. -/
def exClient : Client := ⟨50, false⟩

/-- Example delivery pattern: chunk 0 fails, all later chunks succeed. -/
def exOk : Nat → Bool := fun i => i != 0

/-- Example filesystem in which Safari's History.db stats with a
permission-style error (neither success nor is-not-exist). -/
def exFS : FileSystem :=
  ⟨fun p => if p = "/Users/alice/Library/Safari/History.db" then .otherError
            else .ok,
   fun _ => none⟩

/-- Claim C1: the code violates the no-premature-advance property.  On the
two-chunk scenario the first chunk (records with minimum timestamp 100)
fails, the second succeeds, and Scanner.scanProfile stores watermark 200,
which is ≥ 100: Client.Send keeps the running maximum over all successful
chunks, so a chunk after a failed one advances the watermark past the failed
chunk's minimum timestamp, and the failed records are never re-sent. -/
theorem watermark_passes_failed_chunk_minimum :
    buildChunks exClient exPayload =
      [⟨exPrincipal, [exSiteA], "chrome"⟩, ⟨exPrincipal, [exSiteB], "chrome"⟩] ∧
    exOk 0 = false ∧
    exSiteA.timestamp = 100 ∧
    (scanProfile exClient exOk 50 0 (fun _ => some [exSiteA, exSiteB])
        exPrincipal "chrome").storedAfter = 200 ∧
    (100 : Int) ≤ 200 := by
  decide

/-- Claim C2 counterexample: when every chunk of a non-empty batch fails,
Client.Send returns a non-nil error (third component true) instead of
reporting the failure only through lastError/failedCount. -/
theorem send_returns_error_when_all_chunks_fail :
    (Send ⟨1000, false⟩ (fun _ => false)
        ⟨exPrincipal, [⟨"x", 7⟩], "chrome"⟩).2.2 = true := by
  decide

/-- Claim C3 counterexample: a profile whose delivery had a failed chunk but
also a delivered chunk (failedCount = 1, totalSent = 1) makes scanProfile
return (1, nil), which Run counts as a success, so a run consisting of that
single profile exits 0, not 1; additionally a run that enumerates zero users
exits 2 with no failure anywhere. -/
theorem partial_delivery_yields_exit_zero :
    (Send exClient exOk exPayload).1.failedCount = 1 ∧
    (Send exClient exOk exPayload).1.totalSent = 1 ∧
    (Send exClient exOk exPayload).2.2 = false ∧
    (scanProfile exClient exOk 50 0 (fun _ => some [exSiteA, exSiteB])
        exPrincipal "chrome").sentResult = some 1 ∧
    runExitCode ⟨true, [[some 1]]⟩ = .success ∧
    runExitCode ⟨true, []⟩ = .completeFailure := by
  decide

/-- Claim C5: with compression enabled, every attempt of sendChunk carries
the same serialized bytes; a 415 first response leads to exactly one more
attempt, uncompressed, whose outcome is the raw attempt's outcome; any other
first response leads to no retry, and the chunk succeeds exactly when that
sole attempt got a 2xx. -/
theorem compressed_retry_only_on_415 (data : String)
    (respond : Bool → String → HttpReply) :
    (∀ a ∈ (sendChunkModel true data respond).1, a.2 = data) ∧
    (respond true data = .status 415 →
      sendChunkModel true data respond =
        ([(true, data), (false, data)], attemptOutcome (respond false data))) ∧
    (respond true data ≠ .status 415 →
      (sendChunkModel true data respond).1 = [(true, data)] ∧
      ((sendChunkModel true data respond).2 = none ↔
        attemptOutcome (respond true data) = none)) := by
  cases h : respond true data with
  | netError =>
      simp [sendChunkModel, attemptOutcome, isUnsupportedMediaType, h]
  | status code =>
      by_cases h2 : 200 ≤ code ∧ code < 300
      · have h415 : code ≠ 415 := by omega
        simp [sendChunkModel, attemptOutcome, isUnsupportedMediaType, h, h2, h415]
      · by_cases hc : code = 415
        · subst hc
          simp [sendChunkModel, attemptOutcome, isUnsupportedMediaType, h, h2]
        · simp [sendChunkModel, attemptOutcome, isUnsupportedMediaType, h, h2, hc]

/-- Witness for compressed_retry_only_on_415: a 415 reply produces exactly
the compressed attempt and then an uncompressed retry with identical bytes. -/
theorem compressed_retry_only_on_415_witness :
    sendChunkModel true "p" (fun _ _ => HttpReply.status 415) =
      ([(true, "p"), (false, "p")], some (SendErr.httpErr 415)) := by
  rw [(compressed_retry_only_on_415 "p" (fun _ _ => HttpReply.status 415)).2.1 rfl]
  decide

/-- Claim C6 counterexample: with watermark 5 ms, a Chromium row whose native
time is 5001 microseconds past the Unix epoch passes the strictly-greater
native filter but normalizes to exactly 5 ms, so GetHistory returns a record
whose Unix-ms timestamp equals the watermark instead of exceeding it. -/
theorem chromium_history_returns_watermark_timestamp :
    chromiumGetHistory [⟨"u", 11644473600 * 1000000 + 5001⟩] 5 = [⟨"u", 5⟩] ∧
    ¬ ((5 : Int) > 5) := by
  decide

/-- Claim C7 counterexample: the Chromium native value offset + 1999
microseconds converts to 1 Unix ms, and converting back gives offset + 1000:
the round trip is off by 999 native microseconds, so it does not recover the
original value within the native (microsecond) precision. -/
theorem chromium_roundtrip_not_native_exact :
    chromiumToUnixMs (chromiumEpochOffsetMicros + 1999) = 1 ∧
    chromiumFromUnixMs 1 = chromiumEpochOffsetMicros + 1000 ∧
    chromiumEpochOffsetMicros + 1000 ≠ chromiumEpochOffsetMicros + 1999 := by
  decide

/-- Claim C8: a read that succeeds with zero records makes scanProfile return
(0, nil) with no transport call and no watermark mutation. -/
theorem skipped_profile_is_frame (c : Client) (ok : Nat → Bool)
    (stored horizon : Int) (history : Int → Option (List VisitedSite))
    (principal : PrincipalDTO) (source : String)
    (h : history (if stored = 0 then horizon else stored) = some []) :
    scanProfile c ok stored horizon history principal source =
      ⟨false, stored, false, some 0⟩ := by
  simp [scanProfile, h]

/-- Witness for skipped_profile_is_frame at a concrete empty container. -/
theorem skipped_profile_is_frame_witness :
    scanProfile ⟨10, false⟩ (fun _ => true) 5 0 (fun _ => some [])
      exPrincipal "edge" = ⟨false, 5, false, some 0⟩ :=
  skipped_profile_is_frame ⟨10, false⟩ (fun _ => true) 5 0 (fun _ => some [])
    exPrincipal "edge" rfl

/-- Claim C9 counterexample: on macOS with a filesystem where stat on
History.db reports a non-not-exist error, SafariBrowser.FindProfiles still
returns the Default profile although the record-store file was not verified
to exist. -/
theorem safari_profile_included_without_verified_store :
    (safariFindProfiles .darwin exFS ⟨"alice", "/Users/alice"⟩).1 =
      [⟨"Default", "/Users/alice/Library/Safari"⟩] ∧
    exFS.stat "/Users/alice/Library/Safari/History.db" ≠ .ok := by
  decide

/-- The uncompressed size estimate of a list of records: the sum of their
per-entry estimates, which is what currentSize accumulates. -/
def sizeSum (sites : List VisitedSite) : Nat :=
  (sites.map entrySize).sum

lemma entrySize_ge (site : VisitedSite) : 40 ≤ entrySize site := by
  unfold entrySize
  omega

lemma sizeSum_append_one (sites : List VisitedSite) (site : VisitedSite) :
    sizeSum (sites ++ [site]) = sizeSum sites + entrySize site := by
  simp [sizeSum]

lemma estimatedCompressedSize_add_le (compress : Bool) (a e : Nat)
    (he : 40 ≤ e) :
    estimatedCompressedSize compress (a + e) ≤
      estimatedCompressedSize compress a + e := by
  cases compress
  · simp [estimatedCompressedSize]
  · simp only [estimatedCompressedSize, if_true]
    omega

lemma buildChunksAux_flatten (c : Client) (p : PrincipalDTO) (src : String) :
    ∀ (sites cur : List VisitedSite) (sz : Nat),
      ((buildChunksAux c p src sites cur sz).map
          (fun ch => ch.visitedSites)).flatten = cur ++ sites := by
  intro sites
  induction sites with
  | nil =>
      intro cur sz
      by_cases h : cur = [] <;> simp [buildChunksAux, h]
  | cons site rest ih =>
      intro cur sz
      by_cases h : cur ≠ [] ∧
          estimatedCompressedSize c.compress sz + entrySize site >
            c.maxChunkSize
      · simp [buildChunksAux, h, ih]
      · simp [buildChunksAux, h, ih]

lemma buildChunksAux_meta (c : Client) (p : PrincipalDTO) (src : String) :
    ∀ (sites cur : List VisitedSite) (sz : Nat),
      ∀ chunk ∈ buildChunksAux c p src sites cur sz,
        chunk.principal = p ∧ chunk.source = src := by
  intro sites
  induction sites with
  | nil =>
      intro cur sz chunk hmem
      by_cases h : cur = [] <;> simp [buildChunksAux, h] at hmem
      subst hmem
      exact ⟨rfl, rfl⟩
  | cons site rest ih =>
      intro cur sz chunk hmem
      by_cases h : cur ≠ [] ∧
          estimatedCompressedSize c.compress sz + entrySize site >
            c.maxChunkSize
      · simp only [buildChunksAux, if_pos h, List.mem_cons] at hmem
        rcases hmem with rfl | hmem
        · exact ⟨rfl, rfl⟩
        · exact ih _ _ chunk hmem
      · simp only [buildChunksAux, if_neg h] at hmem
        exact ih _ _ chunk hmem

lemma buildChunksAux_nonempty (c : Client) (p : PrincipalDTO) (src : String) :
    ∀ (sites cur : List VisitedSite) (sz : Nat),
      ∀ chunk ∈ buildChunksAux c p src sites cur sz,
        chunk.visitedSites ≠ [] := by
  intro sites
  induction sites with
  | nil =>
      intro cur sz chunk hmem
      by_cases h : cur = [] <;> simp [buildChunksAux, h] at hmem
      subst hmem
      exact h
  | cons site rest ih =>
      intro cur sz chunk hmem
      by_cases h : cur ≠ [] ∧
          estimatedCompressedSize c.compress sz + entrySize site >
            c.maxChunkSize
      · simp only [buildChunksAux, if_pos h, List.mem_cons] at hmem
        rcases hmem with rfl | hmem
        · exact h.1
        · exact ih _ _ chunk hmem
      · simp only [buildChunksAux, if_neg h] at hmem
        exact ih _ _ chunk hmem

lemma buildChunksAux_ceiling (c : Client) (p : PrincipalDTO) (src : String) :
    ∀ (sites cur : List VisitedSite) (sz : Nat),
      sz = sizeSum cur →
      (2 ≤ cur.length →
        estimatedCompressedSize c.compress sz ≤ c.maxChunkSize) →
      ∀ chunk ∈ buildChunksAux c p src sites cur sz,
        chunk.visitedSites.length = 1 ∨
          estimatedCompressedSize c.compress (sizeSum chunk.visitedSites) ≤
            c.maxChunkSize := by
  intro sites
  induction sites with
  | nil =>
      intro cur sz hsz hinv chunk hmem
      by_cases h : cur = [] <;> simp [buildChunksAux, h] at hmem
      subst hmem
      rcases Nat.lt_or_ge cur.length 2 with h1 | h2
      · left
        have h0 : cur.length ≠ 0 := by
          simpa [List.length_eq_zero] using h
        show cur.length = 1
        omega
      · right
        subst hsz
        exact hinv h2
  | cons site rest ih =>
      intro cur sz hsz hinv chunk hmem
      by_cases h : cur ≠ [] ∧
          estimatedCompressedSize c.compress sz + entrySize site >
            c.maxChunkSize
      · simp only [buildChunksAux, if_pos h, List.mem_cons] at hmem
        rcases hmem with rfl | hmem
        · rcases Nat.lt_or_ge cur.length 2 with h1 | h2
          · left
            have h0 : cur.length ≠ 0 := by
              simpa [List.length_eq_zero] using h.1
            show cur.length = 1
            omega
          · right
            subst hsz
            exact hinv h2
        · refine ih [site] (entrySize site) (by simp [sizeSum]) ?_ chunk hmem
          intro h2
          simp at h2
      · simp only [buildChunksAux, if_neg h] at hmem
        refine ih (cur ++ [site]) (sz + entrySize site)
          (by rw [sizeSum_append_one, hsz]) ?_ chunk hmem
        intro hlen
        have hcur : cur ≠ [] := by
          intro hc
          subst hc
          simp at hlen
        have hle : estimatedCompressedSize c.compress sz + entrySize site ≤
            c.maxChunkSize := by
          rcases not_and_or.mp h with h' | h'
          · exact absurd hcur (by simpa using h')
          · omega
        calc estimatedCompressedSize c.compress (sz + entrySize site) ≤
              estimatedCompressedSize c.compress sz + entrySize site :=
            estimatedCompressedSize_add_le c.compress sz (entrySize site)
              (entrySize_ge site)
          _ ≤ c.maxChunkSize := hle

lemma buildChunksAux_head (c : Client) (p : PrincipalDTO) (src : String) :
    ∀ (sites cur : List VisitedSite) (sz : Nat), cur ≠ [] →
      ∃ ext tl, buildChunksAux c p src sites cur sz =
        ⟨p, cur ++ ext, src⟩ :: tl := by
  intro sites
  induction sites with
  | nil =>
      intro cur sz h
      exact ⟨[], [], by simp [buildChunksAux, h]⟩
  | cons site rest ih =>
      intro cur sz h
      by_cases hseal : cur ≠ [] ∧
          estimatedCompressedSize c.compress sz + entrySize site >
            c.maxChunkSize
      · exact ⟨[], buildChunksAux c p src rest [site] (entrySize site),
          by simp [buildChunksAux, hseal]⟩
      · obtain ⟨ext, tl, heq⟩ :=
          ih (cur ++ [site]) (sz + entrySize site) (by simp)
        exact ⟨site :: ext, tl, by simp [buildChunksAux, hseal, heq]⟩

/-- The boundary relation between consecutive emitted chunks: the first chunk
was sealed because adding the next chunk's first record would have pushed its
size estimate past the ceiling. -/
def chunkBoundaryOverflow (c : Client) (a b : VisitedSitesDTO) : Prop :=
  c.maxChunkSize <
    estimatedCompressedSize c.compress (sizeSum a.visitedSites) +
      entrySize b.visitedSites.headI

lemma buildChunksAux_chain (c : Client) (p : PrincipalDTO) (src : String) :
    ∀ (sites cur : List VisitedSite) (sz : Nat), sz = sizeSum cur →
      List.Chain' (chunkBoundaryOverflow c)
        (buildChunksAux c p src sites cur sz) := by
  intro sites
  induction sites with
  | nil =>
      intro cur sz hsz
      by_cases h : cur = [] <;> simp [buildChunksAux, h]
  | cons site rest ih =>
      intro cur sz hsz
      by_cases hseal : cur ≠ [] ∧
          estimatedCompressedSize c.compress sz + entrySize site >
            c.maxChunkSize
      · rw [buildChunksAux, if_pos hseal]
        apply List.chain'_cons'.mpr
        refine ⟨?_, ih [site] (entrySize site) (by simp [sizeSum])⟩
        intro y hy
        obtain ⟨ext, tl, heq⟩ :=
          buildChunksAux_head c p src rest [site] (entrySize site) (by simp)
        rw [heq] at hy
        simp only [List.head?_cons, Option.mem_some_iff] at hy
        subst hy
        show c.maxChunkSize <
          estimatedCompressedSize c.compress (sizeSum cur) +
            entrySize (site :: ext).headI
        rw [← hsz]
        simpa using hseal.2
      · rw [buildChunksAux, if_neg hseal]
        exact ih (cur ++ [site]) (sz + entrySize site)
          (by rw [sizeSum_append_one, hsz])

/-- Claim C4: every chunk buildChunks emits is non-empty and either consists
of a single (possibly oversized) record or has a size estimate within the
ceiling; and consecutive chunks are separated exactly by overflow — the
sealed chunk's estimate plus the next chunk's first record's entry size
exceeds the ceiling, so no chunk is sealed early. -/
theorem chunk_estimate_within_ceiling (c : Client) (payload : VisitedSitesDTO) :
    (∀ chunk ∈ buildChunks c payload,
      chunk.visitedSites ≠ [] ∧
        (chunk.visitedSites.length = 1 ∨
          estimatedCompressedSize c.compress (sizeSum chunk.visitedSites) ≤
            c.maxChunkSize)) ∧
    List.Chain' (chunkBoundaryOverflow c) (buildChunks c payload) := by
  refine ⟨fun chunk hmem => ⟨?_, ?_⟩, ?_⟩
  · exact buildChunksAux_nonempty c payload.principal payload.source
      payload.visitedSites [] 0 chunk hmem
  · exact buildChunksAux_ceiling c payload.principal payload.source
      payload.visitedSites [] 0 (by simp [sizeSum]) (by simp) chunk hmem
  · exact buildChunksAux_chain c payload.principal payload.source
      payload.visitedSites [] 0 (by simp [sizeSum])

/-- Witness for chunk_estimate_within_ceiling: on the concrete two-record
example, the first emitted chunk is non-empty and within the ceiling. -/
theorem chunk_estimate_within_ceiling_witness :
    (⟨exPrincipal, [exSiteA], "chrome"⟩ : VisitedSitesDTO).visitedSites ≠ [] ∧
      ((⟨exPrincipal, [exSiteA], "chrome"⟩ : VisitedSitesDTO).visitedSites.length = 1 ∨
        estimatedCompressedSize exClient.compress
            (sizeSum (⟨exPrincipal, [exSiteA], "chrome"⟩ : VisitedSitesDTO).visitedSites) ≤
          exClient.maxChunkSize) :=
  (chunk_estimate_within_ceiling exClient exPayload).1
    ⟨exPrincipal, [exSiteA], "chrome"⟩ (by decide)

lemma sendLoop_total_add_failed (ok : Nat → Bool) :
    ∀ (chunks : List VisitedSitesDTO) (i : Nat) (r : SendResult) (m : Int),
      (sendLoop ok i chunks r m).1.totalSent +
          (sendLoop ok i chunks r m).1.failedCount =
        r.totalSent + r.failedCount +
          (chunks.map (fun ch => ch.visitedSites.length)).sum := by
  intro chunks
  induction chunks with
  | nil =>
      intro i r m
      simp [sendLoop]
  | cons ch rest ih =>
      intro i r m
      by_cases h : ok i = true
      · rw [sendLoop, if_pos h, ih]
        simp
        omega
      · rw [sendLoop, if_neg h, ih]
        simp
        omega

lemma sendLoop_totalSent_mono (ok : Nat → Bool) :
    ∀ (chunks : List VisitedSitesDTO) (i : Nat) (r : SendResult) (m : Int),
      r.totalSent ≤ (sendLoop ok i chunks r m).1.totalSent := by
  intro chunks
  induction chunks with
  | nil =>
      intro i r m
      simp [sendLoop]
  | cons ch rest ih =>
      intro i r m
      by_cases h : ok i = true
      · rw [sendLoop, if_pos h]
        calc r.totalSent ≤ r.totalSent + ch.visitedSites.length :=
            Nat.le_add_right _ _
          _ ≤ _ := ih (i + 1)
            { r with
              totalSent := r.totalSent + ch.visitedSites.length
              chunksSent := r.chunksSent + 1 }
            (chunkMaxTimestamp m ch.visitedSites)
      · rw [sendLoop, if_neg h]
        exact ih (i + 1)
          { r with
            failedCount := r.failedCount + ch.visitedSites.length
            lastErrorSet := true }
          m

lemma sendLoop_totalSent_eq_iff (ok : Nat → Bool) :
    ∀ (chunks : List VisitedSitesDTO) (i : Nat) (r : SendResult) (m : Int),
      (∀ ch ∈ chunks, ch.visitedSites ≠ []) →
      ((sendLoop ok i chunks r m).1.totalSent = r.totalSent ↔
        ∀ j < chunks.length, ok (i + j) = false) := by
  intro chunks
  induction chunks with
  | nil =>
      intro i r m _
      simp [sendLoop]
  | cons ch rest ih =>
      intro i r m hne
      by_cases h : ok i = true
      · rw [sendLoop, if_pos h]
        refine iff_of_false ?_ ?_
        · have h1 : 0 < ch.visitedSites.length :=
            List.length_pos.mpr (hne ch (List.mem_cons_self ch rest))
          have h2 := sendLoop_totalSent_mono ok rest (i + 1)
            { r with
              totalSent := r.totalSent + ch.visitedSites.length
              chunksSent := r.chunksSent + 1 }
            (chunkMaxTimestamp m ch.visitedSites)
          simp only at h2
          omega
        · intro hall
          have := hall 0 (by simp)
          simp [h] at this
      · rw [sendLoop, if_neg h]
        have hb : ok i = false := by
          simpa using h
        rw [ih (i + 1)
          { r with
            failedCount := r.failedCount + ch.visitedSites.length
            lastErrorSet := true }
          m (fun x hx => hne x (List.mem_cons_of_mem ch hx))]
        constructor
        · intro hall j hj
          match j with
          | 0 => simpa using hb
          | Nat.succ k =>
              have := hall k (by simpa using Nat.lt_of_succ_lt_succ hj)
              simpa [Nat.add_assoc, Nat.add_comm 1 k] using this
        · intro hall j hj
          have := hall (j + 1) (by simpa using Nat.succ_lt_succ hj)
          simpa [Nat.add_assoc, Nat.add_comm 1 j] using this

lemma sendLoop_lastError_iff (ok : Nat → Bool) :
    ∀ (chunks : List VisitedSitesDTO) (i : Nat) (r : SendResult) (m : Int),
      ((sendLoop ok i chunks r m).1.lastErrorSet = true ↔
        r.lastErrorSet = true ∨ ∃ j < chunks.length, ok (i + j) = false) := by
  intro chunks
  induction chunks with
  | nil =>
      intro i r m
      simp [sendLoop]
  | cons ch rest ih =>
      intro i r m
      by_cases h : ok i = true
      · rw [sendLoop, if_pos h, ih]
        simp only
        constructor
        · rintro (hr | ⟨j, hj, hok⟩)
          · exact Or.inl hr
          · exact Or.inr ⟨j + 1, by simpa using Nat.succ_lt_succ hj,
              by simpa [Nat.add_assoc, Nat.add_comm 1 j] using hok⟩
        · rintro (hr | ⟨j, hj, hok⟩)
          · exact Or.inl hr
          · match j with
            | 0 =>
                rw [Nat.add_zero] at hok
                rw [h] at hok
                exact absurd hok (by simp)
            | Nat.succ k =>
                exact Or.inr ⟨k, by simpa using Nat.lt_of_succ_lt_succ hj,
                  by simpa [Nat.add_assoc, Nat.add_comm 1 k] using hok⟩
      · rw [sendLoop, if_neg h, ih]
        exact iff_of_true (Or.inl (by simp))
          (Or.inr ⟨0, by simp, by simpa using h⟩)

lemma buildChunks_flatten (c : Client) (payload : VisitedSitesDTO) :
    ((buildChunks c payload).map (fun ch => ch.visitedSites)).flatten =
      payload.visitedSites := by
  have h := buildChunksAux_flatten c payload.principal payload.source
    payload.visitedSites [] 0
  simpa [buildChunks] using h

lemma buildChunks_eq_nil_iff (c : Client) (payload : VisitedSitesDTO) :
    buildChunks c payload = [] ↔ payload.visitedSites = [] := by
  constructor
  · intro h
    have := buildChunks_flatten c payload
    rw [h] at this
    simpa using this.symm
  · intro h
    simp [buildChunks, h, buildChunksAux]

/-- Claim C10: buildChunks partitions the batch exactly — the concatenation
of the emitted chunks' record lists is the input record list, every chunk
carries the batch's principal and source unchanged — and Send accounts for
every record: totalSent plus failedCount equals the batch size, for every
per-chunk outcome pattern. -/
theorem chunks_partition_batch (c : Client) (ok : Nat → Bool)
    (payload : VisitedSitesDTO) :
    ((buildChunks c payload).map (fun ch => ch.visitedSites)).flatten =
      payload.visitedSites ∧
    (∀ chunk ∈ buildChunks c payload,
      chunk.principal = payload.principal ∧
        chunk.source = payload.source) ∧
    (Send c ok payload).1.totalSent + (Send c ok payload).1.failedCount =
      payload.visitedSites.length := by
  have hflat := buildChunks_flatten c payload
  refine ⟨hflat, ?_, ?_⟩
  · intro chunk hmem
    exact buildChunksAux_meta c payload.principal payload.source
      payload.visitedSites [] 0 chunk hmem
  · unfold Send
    by_cases hlen : payload.visitedSites.length = 0
    · simp [hlen]
    · rw [if_neg hlen]
      have hsum := sendLoop_total_add_failed ok (buildChunks c payload) 0
        ⟨0, 0, 0, false⟩ 0
      have hlensum : ((buildChunks c payload).map
          (fun ch => ch.visitedSites.length)).sum =
            payload.visitedSites.length := by
        calc ((buildChunks c payload).map
              (fun ch => ch.visitedSites.length)).sum =
            (((buildChunks c payload).map
              (fun ch => ch.visitedSites)).map List.length).sum := by
              rw [List.map_map]; rfl
          _ = (((buildChunks c payload).map
              (fun ch => ch.visitedSites)).flatten).length := by
              rw [List.length_flatten]
          _ = payload.visitedSites.length := by rw [hflat]
      unfold sendReturn
      split
      · simpa [hlensum] using hsum
      · simpa [hlensum] using hsum

/-- Witness for chunks_partition_batch at the concrete two-record example:
the partition property and record accounting hold there. -/
theorem chunks_partition_batch_witness :
    (⟨exPrincipal, [exSiteA], "chrome"⟩ : VisitedSitesDTO).principal =
        exPayload.principal ∧
      (⟨exPrincipal, [exSiteA], "chrome"⟩ : VisitedSitesDTO).source =
        exPayload.source :=
  (chunks_partition_batch exClient exOk exPayload).2.1
    ⟨exPrincipal, [exSiteA], "chrome"⟩ (by decide)

/-- Claim C2 (amended): Client.Send returns a non-nil error exactly when the
batch is non-empty and every chunk's delivery failed; in every other case —
in particular whenever at least one chunk succeeded — failures are reported
only through lastError and failedCount. -/
theorem send_error_iff_all_chunks_failed (c : Client) (ok : Nat → Bool)
    (payload : VisitedSitesDTO) :
    (Send c ok payload).2.2 = true ↔
      payload.visitedSites ≠ [] ∧
        ∀ j < (buildChunks c payload).length, ok j = false := by
  unfold Send
  by_cases hlen : payload.visitedSites.length = 0
  · rw [if_pos hlen]
    simp [List.length_eq_zero.mp hlen]
  · rw [if_neg hlen]
    have hne : payload.visitedSites ≠ [] := by
      intro h
      exact hlen (by simp [h])
    have hchne : ∀ ch ∈ buildChunks c payload, ch.visitedSites ≠ [] :=
      fun ch hch => buildChunksAux_nonempty c payload.principal payload.source
        payload.visitedSites [] 0 ch hch
    have hchunks : buildChunks c payload ≠ [] := by
      intro h
      exact hne ((buildChunks_eq_nil_iff c payload).mp h)
    have htot := sendLoop_totalSent_eq_iff ok (buildChunks c payload) 0
      ⟨0, 0, 0, false⟩ 0 hchne
    have herr := sendLoop_lastError_iff ok (buildChunks c payload) 0
      ⟨0, 0, 0, false⟩ 0
    simp only [Nat.zero_add] at htot herr
    unfold sendReturn
    split
    · next hc =>
        refine iff_of_true rfl ⟨hne, fun j hj => ?_⟩
        exact (htot.mp hc.1) j hj
    · next hc =>
        refine iff_of_false (by simp) ?_
        rintro ⟨-, hall⟩
        refine hc ⟨htot.mpr hall, ?_⟩
        refine herr.mpr (Or.inr ⟨0, ?_, hall 0 ?_⟩) <;>
          exact List.length_pos.mpr hchunks

/-- Witness for send_error_iff_all_chunks_failed: on a one-record batch whose
single chunk fails, Send returns an error. -/
theorem send_error_iff_all_chunks_failed_witness :
    (Send exClient (fun _ => false)
      ⟨exPrincipal, [exSiteA], "chrome"⟩).2.2 = true :=
  (send_error_iff_all_chunks_failed exClient (fun _ => false)
      ⟨exPrincipal, [exSiteA], "chrome"⟩).mpr
    ⟨by decide, fun j hj => rfl⟩

lemma filter_length_pos_iff {α : Type} (p : α → Bool) (l : List α) :
    0 < (l.filter p).length ↔ ∃ a ∈ l, p a = true := by
  rw [List.length_pos_iff_exists_mem]
  simp [List.mem_filter]

lemma filter_length_eq_zero_iff {α : Type} (p : α → Bool) (l : List α) :
    (l.filter p).length = 0 ↔ ∀ a ∈ l, p a = false := by
  rw [List.length_eq_zero, List.filter_eq_nil_iff]
  simp

/-- Claim C3 (amended): Run exits 0 exactly when enumeration found users and
no profile's scanProfile returned an error (profiles with failed chunks but
at least one delivered record count as successes, not failures); exits 1
exactly when at least one profile errored and at least one delivered records;
exits 2 exactly when enumeration failed, found no users, or at least one
profile errored while none delivered records. -/
theorem run_exit_classification (inp : RunInput) :
    (runExitCode inp = .success ↔
      inp.enumOk = true ∧ inp.userProfiles ≠ [] ∧
        ∀ o ∈ inp.userProfiles.flatten, o ≠ none) ∧
    (runExitCode inp = .partialFailure ↔
      inp.enumOk = true ∧ inp.userProfiles ≠ [] ∧
        (∃ o ∈ inp.userProfiles.flatten, isSuccessOutcome o = true) ∧
        ∃ o ∈ inp.userProfiles.flatten, o = none) ∧
    (runExitCode inp = .completeFailure ↔
      inp.enumOk = false ∨ inp.userProfiles = [] ∨
        ((∀ o ∈ inp.userProfiles.flatten, isSuccessOutcome o = false) ∧
          ∃ o ∈ inp.userProfiles.flatten, o = none)) := by
  obtain ⟨enumOk, ups⟩ := inp
  cases enumOk
  · simp [runExitCode]
  · by_cases hlen : ups.length = 0
    · rw [List.length_eq_zero] at hlen
      subst hlen
      simp [runExitCode]
    · have hne : ups ≠ [] := by
        intro h
        rw [h] at hlen
        exact hlen rfl
      have hlen' : ¬ (ups.length = 0) := hlen
      have hFpos : 0 < (ups.flatten.filter (fun o => o.isNone)).length ↔
          ∃ o ∈ ups.flatten, o = none := by
        rw [filter_length_pos_iff]
        simp [Option.isNone_iff_eq_none]
      have hFzero : (ups.flatten.filter (fun o => o.isNone)).length = 0 ↔
          ∀ o ∈ ups.flatten, o ≠ none := by
        rw [filter_length_eq_zero_iff]
        constructor
        · intro h o ho
          have := h o ho
          cases o
          · simp at this
          · simp
        · intro h o ho
          have := h o ho
          cases o
          · exact absurd rfl this
          · simp
      have hSzero : (ups.flatten.filter isSuccessOutcome).length = 0 ↔
          ∀ o ∈ ups.flatten, isSuccessOutcome o = false :=
        filter_length_eq_zero_iff _ _
      have hSpos : 0 < (ups.flatten.filter isSuccessOutcome).length ↔
          ∃ o ∈ ups.flatten, isSuccessOutcome o = true :=
        filter_length_pos_iff _ _
      by_cases hs : (ups.flatten.filter isSuccessOutcome).length = 0 <;>
        by_cases hf : 0 < (ups.flatten.filter (fun o => o.isNone)).length
      · have hexit : runExitCode ⟨true, ups⟩ = .completeFailure := by
          simp only [runExitCode]
          rw [if_neg (by simp), if_neg hlen', if_pos ⟨hs, hf⟩]
        rw [hexit]
        refine ⟨iff_of_false (by simp) ?_, iff_of_false (by simp) ?_,
          iff_of_true rfl (Or.inr (Or.inr ⟨hSzero.mp hs, hFpos.mp hf⟩))⟩
        · rintro ⟨-, -, hall⟩
          obtain ⟨o, ho, rfl⟩ := hFpos.mp hf
          exact hall none ho rfl
        · rintro ⟨-, -, ⟨o, ho, hsucc⟩, -⟩
          have := hSzero.mp hs o ho
          rw [this] at hsucc
          exact absurd hsucc (by simp)
      · have hexit : runExitCode ⟨true, ups⟩ = .success := by
          simp only [runExitCode]
          rw [if_neg (by simp), if_neg hlen',
            if_neg (by intro h; exact hf h.2), if_neg hf]
        rw [hexit]
        have hall : ∀ o ∈ ups.flatten, o ≠ none :=
          hFzero.mp (by omega)
        refine ⟨iff_of_true rfl ⟨rfl, hne, hall⟩,
          iff_of_false (by simp) ?_, iff_of_false (by simp) ?_⟩
        · rintro ⟨-, -, -, o, ho, rfl⟩
          exact hall none ho rfl
        · rintro (h | h | ⟨-, o, ho, rfl⟩)
          · exact absurd h (by simp)
          · exact hne h
          · exact hall none ho rfl
      · have hexit : runExitCode ⟨true, ups⟩ = .partialFailure := by
          simp only [runExitCode]
          rw [if_neg (by simp), if_neg hlen',
            if_neg (by intro h; exact hs h.1), if_pos hf]
        rw [hexit]
        have hspos : ∃ o ∈ ups.flatten, isSuccessOutcome o = true :=
          hSpos.mp (Nat.pos_of_ne_zero hs)
        refine ⟨iff_of_false (by simp) ?_,
          iff_of_true rfl ⟨rfl, hne, hspos, hFpos.mp hf⟩,
          iff_of_false (by simp) ?_⟩
        · rintro ⟨-, -, hall⟩
          obtain ⟨o, ho, rfl⟩ := hFpos.mp hf
          exact hall none ho rfl
        · rintro (h | h | ⟨hnos, -⟩)
          · exact absurd h (by simp)
          · exact hne h
          · obtain ⟨o, ho, hsucc⟩ := hspos
            have := hnos o ho
            rw [this] at hsucc
            exact absurd hsucc (by simp)
      · have hexit : runExitCode ⟨true, ups⟩ = .success := by
          simp only [runExitCode]
          rw [if_neg (by simp), if_neg hlen',
            if_neg (by intro h; exact hf h.2), if_neg hf]
        rw [hexit]
        have hall : ∀ o ∈ ups.flatten, o ≠ none :=
          hFzero.mp (by omega)
        refine ⟨iff_of_true rfl ⟨rfl, hne, hall⟩,
          iff_of_false (by simp) ?_, iff_of_false (by simp) ?_⟩
        · rintro ⟨-, -, -, o, ho, rfl⟩
          exact hall none ho rfl
        · rintro (h | h | ⟨-, o, ho, rfl⟩)
          · exact absurd h (by simp)
          · exact hne h
          · exact hall none ho rfl

/-- Witness for run_exit_classification: a run with one user whose single
profile errored and another user whose single profile delivered two records
exits 1. -/
theorem run_exit_classification_witness :
    runExitCode ⟨true, [[none], [some 2]]⟩ = ExitCode.partialFailure :=
  (run_exit_classification ⟨true, [[none], [some 2]]⟩).2.1.mpr
    ⟨rfl, by decide, ⟨some 2, by decide, by decide⟩, ⟨none, by decide, rfl⟩⟩

lemma ratTruncToInt_eq_floor (q : Rat) (hq : 0 ≤ q) :
    ratTruncToInt q = ⌊q⌋ := by
  unfold ratTruncToInt
  rw [Rat.floor_def]
  exact Int.tdiv_eq_ediv (Rat.num_nonneg.mpr hq) (by positivity)

/-- Claim C6 (amended): both history readers filter strictly in native units,
so every returned record's normalized timestamp is at least the watermark —
but, because normalization truncates to milliseconds, it can equal the
watermark rather than strictly exceed it — and, given rows in ascending
native order (as the queries order them) at or after each encoding's zero
point, the returned records are in non-decreasing Unix-ms order. -/
theorem history_at_least_watermark :
    (∀ (rows : List UrlRow) (w : Int), 0 < w →
      ∀ site ∈ chromiumGetHistory rows w, w ≤ site.timestamp) ∧
    (∀ (rows : List UrlRow) (w : Int),
      rows.Pairwise (fun a b => a.lastVisitTime ≤ b.lastVisitTime) →
      (∀ r ∈ rows, chromiumEpochOffsetMicros ≤ r.lastVisitTime) →
      (chromiumGetHistory rows w).Pairwise
        (fun a b => a.timestamp ≤ b.timestamp)) ∧
    (∀ (rows : List VisitRow) (w : Int), 0 < w →
      ∀ site ∈ safariGetHistory rows w, w ≤ site.timestamp) ∧
    (∀ (rows : List VisitRow) (w : Int),
      rows.Pairwise (fun a b => a.visitTime ≤ b.visitTime) →
      (∀ r ∈ rows, 0 ≤ r.visitTime) →
      (safariGetHistory rows w).Pairwise
        (fun a b => a.timestamp ≤ b.timestamp)) := by
  refine ⟨?_, ?_, ?_, ?_⟩
  · intro rows w hw site hsite
    obtain ⟨r, hr, rfl⟩ := List.mem_map.mp hsite
    have hfil := (List.mem_filter.mp hr).2
    rw [decide_eq_true_eq] at hfil
    unfold chromiumSinceNative chromiumFromUnixMs at hfil
    rw [if_pos hw] at hfil
    show w ≤ chromiumToUnixMs r.lastVisitTime
    unfold chromiumToUnixMs chromiumEpochOffsetMicros at *
    rw [Int.tdiv_eq_ediv (by omega) (by omega)]
    omega
  · intro rows w hsorted hoff
    unfold chromiumGetHistory
    rw [List.pairwise_map]
    refine (hsorted.filter _).imp_of_mem ?_
    intro a b ha hb hab
    have hoffa := hoff a (List.mem_of_mem_filter ha)
    have hoffb := hoff b (List.mem_of_mem_filter hb)
    show chromiumToUnixMs a.lastVisitTime ≤ chromiumToUnixMs b.lastVisitTime
    unfold chromiumToUnixMs chromiumEpochOffsetMicros at *
    rw [Int.tdiv_eq_ediv (by omega) (by omega),
      Int.tdiv_eq_ediv (by omega) (by omega)]
    exact Int.ediv_le_ediv (by norm_num) (by omega)
  · intro rows w hw site hsite
    obtain ⟨r, hr, rfl⟩ := List.mem_map.mp hsite
    have hfil := (List.mem_filter.mp hr).2
    rw [decide_eq_true_eq] at hfil
    unfold safariSinceNative at hfil
    rw [if_pos hw] at hfil
    show w ≤ safariToUnixMs r.visitTime
    unfold safariToUnixMs
    have hwq : (0 : Rat) ≤ (w : Rat) := by
      exact_mod_cast le_of_lt hw
    have hq : (w : Rat) ≤
        (r.visitTime + (safariEpochOffsetSeconds : Rat)) * 1000 := by
      unfold safariFromUnixMs at hfil
      rw [sub_lt_iff_lt_add] at hfil
      have h1000 : (0 : Rat) < 1000 := by norm_num
      have := (div_lt_iff₀ h1000).mp hfil
      linarith
    have hq0 : 0 ≤ (r.visitTime + (safariEpochOffsetSeconds : Rat)) * 1000 := by
      linarith
    rw [ratTruncToInt_eq_floor _ hq0]
    exact Int.le_floor.mpr hq
  · intro rows w hsorted hnn
    unfold safariGetHistory
    rw [List.pairwise_map]
    refine (hsorted.filter _).imp_of_mem ?_
    intro a b ha hb hab
    have ha0 := hnn a (List.mem_of_mem_filter ha)
    have hb0 := hnn b (List.mem_of_mem_filter hb)
    show safariToUnixMs a.visitTime ≤ safariToUnixMs b.visitTime
    unfold safariToUnixMs
    have hoffq : (0 : Rat) ≤ (safariEpochOffsetSeconds : Rat) := by
      unfold safariEpochOffsetSeconds
      norm_num
    have hqa : 0 ≤ (a.visitTime + (safariEpochOffsetSeconds : Rat)) * 1000 := by
      have := add_nonneg ha0 hoffq
      linarith
    have hqb : 0 ≤ (b.visitTime + (safariEpochOffsetSeconds : Rat)) * 1000 := by
      have := add_nonneg hb0 hoffq
      linarith
    rw [ratTruncToInt_eq_floor _ hqa, ratTruncToInt_eq_floor _ hqb]
    apply Int.floor_le_floor
    have h1 : a.visitTime + (safariEpochOffsetSeconds : Rat) ≤
        b.visitTime + (safariEpochOffsetSeconds : Rat) :=
      add_le_add_right hab _
    linarith

/-- Witness for history_at_least_watermark: with watermark 5 ms, a Chromium
row 6000 microseconds past the Unix epoch is returned with normalized
timestamp 6 ≥ 5. -/
theorem history_at_least_watermark_witness :
    (⟨"u", 6⟩ : VisitedSite) ∈
        chromiumGetHistory [⟨"u", 11644473600 * 1000000 + 6000⟩] 5 ∧
      (5 : Int) ≤ (⟨"u", 6⟩ : VisitedSite).timestamp :=
  ⟨by decide,
    history_at_least_watermark.1 [⟨"u", 11644473600 * 1000000 + 6000⟩] 5
      (by decide) ⟨"u", 6⟩ (by decide)⟩

/-- Claim C7 (amended): for both encodings the round trip native → Unix ms →
native recovers the original value only up to the wire unit: the result never
exceeds the original and falls short of it by less than one millisecond
(1000 Chromium microseconds; 1/1000 Safari seconds) — not within the native
unit itself. -/
theorem timestamp_roundtrip_within_wire_unit :
    (∀ native : Int, chromiumEpochOffsetMicros ≤ native →
      chromiumFromUnixMs (chromiumToUnixMs native) ≤ native ∧
        native - chromiumFromUnixMs (chromiumToUnixMs native) < 1000) ∧
    (∀ v : Rat, 0 ≤ v + (safariEpochOffsetSeconds : Rat) →
      safariFromUnixMs (safariToUnixMs v) ≤ v ∧
        v - safariFromUnixMs (safariToUnixMs v) < 1 / 1000) := by
  constructor
  · intro native h
    unfold chromiumFromUnixMs chromiumToUnixMs chromiumEpochOffsetMicros at *
    rw [Int.tdiv_eq_ediv (by omega) (by omega)]
    constructor <;> omega
  · intro v hv
    unfold safariFromUnixMs safariToUnixMs
    have hq0 : 0 ≤ (v + (safariEpochOffsetSeconds : Rat)) * 1000 := by
      linarith
    rw [ratTruncToInt_eq_floor _ hq0]
    have h1 : (↑⌊(v + (safariEpochOffsetSeconds : Rat)) * 1000⌋ : Rat) ≤
        (v + (safariEpochOffsetSeconds : Rat)) * 1000 :=
      Int.floor_le _
    have h2 : (v + (safariEpochOffsetSeconds : Rat)) * 1000 <
        (↑⌊(v + (safariEpochOffsetSeconds : Rat)) * 1000⌋ : Rat) + 1 :=
      Int.lt_floor_add_one _
    constructor <;> · rw [div_sub' _ _ _ (by norm_num : (1000 : Rat) ≠ 0)]
                      linarith

/-- Witness for timestamp_roundtrip_within_wire_unit at the Chromium native
value offset + 1234 microseconds. -/
theorem timestamp_roundtrip_within_wire_unit_witness :
    chromiumFromUnixMs (chromiumToUnixMs (chromiumEpochOffsetMicros + 1234)) ≤
        chromiumEpochOffsetMicros + 1234 ∧
      chromiumEpochOffsetMicros + 1234 -
          chromiumFromUnixMs (chromiumToUnixMs (chromiumEpochOffsetMicros + 1234)) <
        1000 :=
  timestamp_roundtrip_within_wire_unit.1 (chromiumEpochOffsetMicros + 1234)
    (by decide)

/-- Example Chromium-style path configuration (Chrome's). -/
def exPaths : ChromiumPaths :=
  ⟨".config/google-chrome", "Library/Application Support/Google/Chrome",
    "Google\\Chrome\\User Data", false⟩

/-- Example filesystem for profile discovery: the Chrome base directory and
the Default profile's History file exist, everything else does not. -/
def exFS2 : FileSystem :=
  ⟨fun p =>
      if p = "/home/alice/.config/google-chrome" ∨
          p = "/home/alice/.config/google-chrome/Default/History" then .ok
      else .notExist,
    fun p =>
      if p = "/home/alice/.config/google-chrome" then
        some [⟨"Default", true⟩, ⟨"Crash Reports", true⟩]
      else none⟩

/-- Claim C9 (amended): neither FindProfiles ever returns an error — a
ReadDir failure and even an unexpected stat failure yield an empty list or a
fallback, never an error; absence (unsupported platform, missing base
directory, History reported not-exist) yields an empty list; a Chromium
profile is included only when its History file stats cleanly, while Safari
includes its Default profile whenever stat on History.db does not report
is-not-exist — confirmed absence is excluded, but an indeterminate stat
error still includes it. -/
theorem find_profiles_absence_and_validation (os : OSKind)
    (getenv : String → String) (fs : FileSystem) (paths : ChromiumPaths)
    (hasProfiles : Bool) (user : User) :
    (chromiumFindProfiles os getenv fs paths hasProfiles user).2 = false ∧
    (safariFindProfiles os fs user).2 = false ∧
    (fs.stat (getBaseDir os getenv paths user) = .notExist →
      (chromiumFindProfiles os getenv fs paths hasProfiles user).1 = []) ∧
    (∀ p ∈ (chromiumFindProfiles os getenv fs paths hasProfiles user).1,
      fs.stat (pathJoin p.path "History") = .ok) ∧
    (os ≠ .darwin → (safariFindProfiles os fs user).1 = []) ∧
    (fs.stat (pathJoin user.homeDir "Library/Safari/History.db") = .notExist →
      (safariFindProfiles os fs user).1 = []) ∧
    (∀ p ∈ (safariFindProfiles os fs user).1,
      fs.stat (pathJoin user.homeDir "Library/Safari/History.db") ≠
        .notExist) := by
  refine ⟨?_, ?_, ?_, ?_, ?_, ?_, ?_⟩
  · unfold chromiumFindProfiles chromiumProfilesIn
    repeat' split
    all_goals rfl
  · unfold safariFindProfiles
    repeat' split
    all_goals rfl
  · intro hstat
    unfold chromiumFindProfiles chromiumProfilesIn
    by_cases hb : getBaseDir os getenv paths user = ""
    · rw [if_pos hb]
    · rw [if_neg hb, if_pos hstat]
  · intro p hp
    unfold chromiumFindProfiles chromiumProfilesIn at hp
    by_cases hb : getBaseDir os getenv paths user = ""
    · rw [if_pos hb] at hp
      simp at hp
    · rw [if_neg hb] at hp
      by_cases hstat : fs.stat (getBaseDir os getenv paths user) = .notExist
      · rw [if_pos hstat] at hp
        simp at hp
      · rw [if_neg hstat] at hp
        by_cases hhp : hasProfiles = true
        · rw [if_pos hhp] at hp
          cases hrd : fs.readDir (getBaseDir os getenv paths user) with
          | none =>
              rw [hrd] at hp
              simp at hp
          | some entries =>
              rw [hrd] at hp
              obtain ⟨e, he, hfe⟩ := List.mem_filterMap.mp hp
              split at hfe
              · next hcond =>
                  obtain ⟨-, -, hok⟩ := hcond
                  cases hfe
                  exact hok
              · exact absurd hfe (by simp)
        · rw [if_neg hhp] at hp
          split at hp
          · next hok =>
              have : p = ⟨"Default", getBaseDir os getenv paths user⟩ := by
                simpa using hp
              rw [this]
              exact hok
          · simp at hp
  · intro hos
    unfold safariFindProfiles
    rw [if_pos hos]
  · intro hstat
    unfold safariFindProfiles
    by_cases hos : os ≠ .darwin
    · rw [if_pos hos]
    · rw [if_neg hos, if_pos hstat]
  · intro p hp
    unfold safariFindProfiles at hp
    by_cases hos : os ≠ .darwin
    · rw [if_pos hos] at hp
      simp at hp
    · rw [if_neg hos] at hp
      split at hp
      · simp at hp
      · next hstat => exact hstat

/-- Witness for find_profiles_absence_and_validation: on the example
filesystem, Chrome's discovered Default profile has a verified History
file. -/
theorem find_profiles_absence_and_validation_witness :
    (⟨"Default", "/home/alice/.config/google-chrome/Default"⟩ : Profile) ∈
        (chromiumFindProfiles .linux (fun _ => "") exFS2 exPaths true
          ⟨"alice", "/home/alice"⟩).1 ∧
      exFS2.stat
          (pathJoin
            (⟨"Default", "/home/alice/.config/google-chrome/Default"⟩ :
              Profile).path "History") = .ok :=
  ⟨by decide,
    (find_profiles_absence_and_validation .linux (fun _ => "") exFS2 exPaths
        true ⟨"alice", "/home/alice"⟩).2.2.2.1
      ⟨"Default", "/home/alice/.config/google-chrome/Default"⟩ (by decide)⟩

end HistScanner
